import Mathlib

/-!
Shallow embedding of the summary-merge and LLM-client logic of the
obsidian-smart-nib plugin (src/summarize.ts and the LLM client module).
Note contents are modelled as lists of characters; JavaScript strings are
translated via String.data on Lean string literals.
-/

namespace SmartNib

/-- Whitespace characters recognised by the JavaScript trim used in the
source (the ASCII subset, which covers every input considered here). -/
def isWS (c : Char) : Bool :=
  if c = ' ' then true
  else if c = '\t' then true
  else if c = '\n' then true
  else if c = '\r' then true
  else if c = '\x0b' then true
  else if c = '\x0c' then true
  else false

/-- JavaScript String.prototype.trim on a character list. -/
def jsTrim (l : List Char) : List Char :=
  ((l.dropWhile isWS).reverse.dropWhile isWS).reverse

/-- The replace step for the regex of one-or-more leading newlines,
replacing them with the empty string (used twice in the source). -/
def dropLeadingNewlines : List Char → List Char
  | [] => []
  | c :: r => if c = '\n' then dropLeadingNewlines r else c :: r

/-- ASCII lower-casing, as performed by a case-insensitive regex flag. -/
def lowerChar (c : Char) : Char :=
  if 'A' ≤ c ∧ c ≤ 'Z' then Char.ofNat (c.toNat + 32) else c

/-- Literal pattern match at the head of a list (case-sensitive). -/
def charsMatch : List Char → List Char → Bool
  | [], _ => true
  | _ :: _, [] => false
  | p :: ps, c :: cs => if p = c then charsMatch ps cs else false

/-- Literal pattern match at the head of a list, case-insensitive. -/
def charsMatchCI : List Char → List Char → Bool
  | [], _ => true
  | _ :: _, [] => false
  | p :: ps, c :: cs => if lowerChar p = lowerChar c then charsMatchCI ps cs else false

/-- The first pattern-length characters of a list (structural form of take,
convenient because the summary-heading patterns are literals). -/
def takeAlong : List Char → List Char → List Char
  | [], _ => []
  | _ :: _, [] => []
  | _ :: ps, c :: cs => c :: takeAlong ps cs

/-- The list with its first pattern-length characters removed. -/
def dropAlong : List Char → List Char → List Char
  | [], s => s
  | _ :: _, [] => []
  | _ :: ps, _ :: cs => dropAlong ps cs

/-- Index of the first occurrence of a literal pattern in a list. -/
def findSub (pat : List Char) : List Char → Option Nat
  | [] => if charsMatch pat [] then some 0 else none
  | c :: cs =>
    if charsMatch pat (c :: cs) then some 0
    else (findSub pat cs).map (· + 1)

def fmOpen : List Char := ("---\n").data

def fmClose : List Char := ("\n---").data

/-- Frontmatter detection of insertSummarySection: the lazy regex anchored at
the start matching three dashes and a newline, a shortest span, then a
newline and three dashes.  Returns the frontmatter and the remaining body
when the regex matches. -/
def frontmatterSplit (content : List Char) : Option (List Char × List Char) :=
  if charsMatch fmOpen content then
    match findSub fmClose (content.drop 4) with
    | some i => some (content.take (i + 8), content.drop (i + 8))
    | none => none
  else none

/-- After at least one hash, skip further hashes and require a space:
the tail of the lookahead for the next heading in the summary regex. -/
def hashRunSpace : List Char → Bool
  | [] => false
  | c :: r => if c = '#' then hashRunSpace r else if c = ' ' then true else false

/-- One or more hashes followed by a space. -/
def nextHeading : List Char → Bool
  | [] => false
  | c :: r => if c = '#' then hashRunSpace r else false

/-- The position where the lazy span of the summary regex stops: end of the
body, or a newline followed by a heading marker of any level. -/
def stopAt : List Char → Bool
  | [] => true
  | c :: r => if c = '\n' then nextHeading r else false

/-- Splits a list at the first stop position (lazy regex span semantics). -/
def spanUntilStop : List Char → List Char × List Char
  | [] => ([], [])
  | c :: cs =>
    if stopAt (c :: cs) then ([], c :: cs)
    else ((c :: (spanUntilStop cs).1), (spanUntilStop cs).2)

def summaryHeadTwo : List Char := ("## summary").data

def summaryHeadOne : List Char := ("# summary").data

/-- Leftmost match of the summary-section regex, with the two-hash heading
alternative preferred at each position as the regex engine does.  Returns
the text before the match, the matched span, and the text after it. -/
def findSummaryMatch : List Char → Option (List Char × List Char × List Char)
  | [] => none
  | c :: cs =>
    if charsMatchCI summaryHeadTwo (c :: cs) then
      some ([],
        takeAlong summaryHeadTwo (c :: cs) ++
          (spanUntilStop (dropAlong summaryHeadTwo (c :: cs))).1,
        (spanUntilStop (dropAlong summaryHeadTwo (c :: cs))).2)
    else if charsMatchCI summaryHeadOne (c :: cs) then
      some ([],
        takeAlong summaryHeadOne (c :: cs) ++
          (spanUntilStop (dropAlong summaryHeadOne (c :: cs))).1,
        (spanUntilStop (dropAlong summaryHeadOne (c :: cs))).2)
    else
      match findSummaryMatch cs with
      | some (b, m, a) => some (c :: b, m, a)
      | none => none

/-- The body-updating step of insertSummarySection: replace an existing
summary span, or insert a fresh block before the trimmed body. -/
def updatedBody (bodyContent summarySection : List Char) : List Char :=
  match findSummaryMatch bodyContent with
  | some (before, _, after) =>
    if dropLeadingNewlines after ≠ [] then
      before ++ summarySection ++ ("\n\n").data ++ dropLeadingNewlines after
    else
      before ++ summarySection ++ ("\n").data
  | none =>
    if jsTrim bodyContent ≠ [] then
      ("\n\n").data ++ summarySection ++ ("\n\n").data ++ jsTrim bodyContent
    else
      ("\n\n").data ++ summarySection ++ ("\n").data

/-- insertSummarySection from src/summarize.ts. -/
def insertSummarySection (content summary : List Char) : List Char :=
  match frontmatterSplit content with
  | some (fm, body) =>
    fm ++ updatedBody body (("# Summary\n\n").data ++ jsTrim summary)
  | none =>
    dropLeadingNewlines (updatedBody content (("# Summary\n\n").data ++ jsTrim summary))

/-- The body insertSummarySection operates on: the content with its leading
frontmatter (when detected) split off. -/
def bodyOf (content : List Char) : List Char :=
  match frontmatterSplit content with
  | some (_, body) => body
  | none => content

/-! The LLM client module: request building, response parsing and the
retry policy of callLLM. -/

inductive LLMProvider where
  | ollama
  | openai
deriving DecidableEq

/-- JSON values, as delivered by the host transport's parsed response body. -/
inductive JsonValue where
  | null
  | bool (b : Bool)
  | num (q : Rat)
  | str (s : List Char)
  | arr (elems : List JsonValue)
  | obj (fields : List (List Char × JsonValue))

/-- First binding of a key in a JavaScript object literal. -/
def lookupField (k : List Char) : List (List Char × JsonValue) → Option JsonValue
  | [] => none
  | (k1, v) :: fs => if k1 = k then some v else lookupField k fs

/-- Field access on the payload of a JSON value. -/
def jsonLookup (k : List Char) : JsonValue → Option JsonValue
  | .obj fs => lookupField k fs
  | _ => none

/-- The LLMConfig record of the source, with strings as character lists and
JavaScript numbers as rationals (they are only carried, never computed on). -/
structure LLMConfig where
  provider : LLMProvider
  baseUrl : List Char
  endpointPath : List Char
  model : List Char
  apiKeyHeaderName : Option (List Char)
  apiKeyHeaderValue : Option (List Char)
  temperature : Rat
  maxTokens : Rat
  timeoutSeconds : Rat

/-- buildRequestBody from the LLM client: common fields plus the
provider-specific generation parameters. -/
def buildRequestBody (config : LLMConfig) (prompt : List Char) : JsonValue :=
  let base : List (List Char × JsonValue) :=
    [(("model").data, .str config.model),
     (("messages").data, .arr [.obj
       [(("role").data, .str (("user").data)),
        (("content").data, .str prompt)]]),
     (("stream").data, .bool false)]
  if config.provider = .openai then
    .obj (base ++
      [(("temperature").data, .num config.temperature),
       (("max_tokens").data, .num config.maxTokens)])
  else
    .obj (base ++
      [(("options").data, .obj
        [(("temperature").data, .num config.temperature),
         (("num_predict").data, .num config.maxTokens)])])

/-- Plain (non-optional) member access on a value that is not null:
undefined for anything without fields.  Access on null throws in
JavaScript, so the null case is handled before this is used. -/
def plainMember (v : JsonValue) (k : List Char) : Option JsonValue :=
  match v with
  | .obj fs => lookupField k fs
  | _ => none

/-- Optional-chaining member access: undefined propagates, null
short-circuits to undefined, and a defined non-object has no fields. -/
def optMember (v : Option JsonValue) (k : List Char) : Option JsonValue :=
  match v with
  | none => none
  | some .null => none
  | some (.obj fs) => lookupField k fs
  | some _ => none

/-- Optional-chaining index access with index 0: arrays yield their head,
objects their field named 0, strings their first character as a one-character
string, anything else undefined. -/
def optIndexZero (v : Option JsonValue) : Option JsonValue :=
  match v with
  | none => none
  | some .null => none
  | some (.arr es) => es.head?
  | some (.obj fs) => lookupField (("0").data) fs
  | some (.str []) => none
  | some (.str (c :: _)) => some (.str [c])
  | some _ => none

/-- Outcome of parseResponseContent: the extracted string, a thrown
LLMError with its message, or a thrown TypeError from accessing a member
of null (carrying the accessed field name). -/
inductive ParseResult where
  | ok (content : List Char)
  | llmErr (message : List Char)
  | typeErr (field : List Char)
deriving DecidableEq

def openaiMissing : List Char :=
  ("Unexpected response format: missing choices[0].message.content").data

def ollamaMissing : List Char :=
  ("Unexpected response format: missing message content").data

/-- The optional-chain read of choices[0].message.content performed by the
openai branch of parseResponseContent (after the initial plain access). -/
def openaiContentAt (j : JsonValue) : Option JsonValue :=
  optMember (optMember (optIndexZero (plainMember j (("choices").data)))
    (("message").data)) (("content").data)

/-- The optional-chain read of message.content performed by the ollama
branch of parseResponseContent (after the initial plain access). -/
def ollamaContentAt (j : JsonValue) : Option JsonValue :=
  optMember (plainMember j (("message").data)) (("content").data)

/-- Whether a JSON value is the null literal (a plain member access on it
throws a TypeError in JavaScript). -/
def isNullJson : JsonValue → Bool
  | .null => true
  | _ => false

/-- parseResponseContent from the LLM client.  The first member access in
each branch is a plain access, so a null response value raises a TypeError
rather than the LLMError carrying the missing-field message. -/
def parseResponseContent (provider : LLMProvider) (json : JsonValue) : ParseResult :=
  if provider = .openai then
    if isNullJson json then .typeErr (("choices").data)
    else
      match openaiContentAt json with
      | some (.str s) => .ok s
      | _ => .llmErr openaiMissing
  else
    if isNullJson json then .typeErr (("message").data)
    else
      match ollamaContentAt json with
      | some (.str s) => .ok s
      | _ => .llmErr ollamaMissing

/-- Outcome of a single invocation of the injected transport function:
either the call itself throws, or it returns a status and parsed body
(HTTP error statuses are reported through the status, never thrown). -/
inductive TransportResult where
  | throws (message : List Char)
  | responds (status : Nat) (json : JsonValue)

/-- Result of callLLM: the content string, or a thrown LLMError. -/
inductive CallResult where
  | ok (content : List Char)
  | llmErr (message : List Char)
deriving DecidableEq

/-- The message of the TypeError thrown by reading a field of null
(as produced by V8, with the field name quoted). -/
def typeErrorMessage (field : List Char) : List Char :=
  ("Cannot read properties of null (reading ").data ++
    [Char.ofNat 39] ++ field ++ [Char.ofNat 39] ++ (")").data

def statusMessage (status : Nat) : List Char :=
  ("LLM request failed: ").data ++ (Nat.repr status).data

/-- Classification of one loop iteration of callLLM: a returned value, a
thrown LLMError (rethrown by the catch, never retried), or any other
failure (saved as the last error and retried). -/
inductive AttemptOutcome where
  | success (content : List Char)
  | llmFailure (message : List Char)
  | otherFailure (message : List Char)

/-- One attempt of the callLLM loop against a scripted transport outcome. -/
def attemptOnce (provider : LLMProvider) (t : TransportResult) : AttemptOutcome :=
  match t with
  | .throws msg => .otherFailure msg
  | .responds status json =>
    if 400 ≤ status then .llmFailure (statusMessage status)
    else
      match parseResponseContent provider json with
      | .ok s => .success s
      | .llmErr m => .llmFailure m
      | .typeErr f => .otherFailure (typeErrorMessage f)

/-- callLLM's two-attempt loop, with the injected transport modelled by the
outcomes of its first and second invocation.  The URL, header and request
body construction does not influence the control flow and is omitted.  The
second component counts transport invocations. -/
def callLLM (provider : LLMProvider) (t1 t2 : TransportResult) : CallResult × Nat :=
  match attemptOnce provider t1 with
  | .success s => (.ok s, 1)
  | .llmFailure m => (.llmErr m, 1)
  | .otherFailure _ =>
    match attemptOnce provider t2 with
    | .success s => (.ok s, 2)
    | .llmFailure m => (.llmErr m, 2)
    | .otherFailure m2 =>
      (.llmErr (("Network error after retry: ").data ++ m2), 2)

/-! Basic facts about the literal pattern matchers. -/

theorem charsMatch_length : ∀ {p l : List Char}, charsMatch p l = true → p.length ≤ l.length := by
  intro p
  induction p with
  | nil => intro l _; simp
  | cons q ps ih =>
    intro l h
    cases l with
    | nil => simp [charsMatch] at h
    | cons c cs =>
      unfold charsMatch at h
      split at h
      · simpa using ih h
      · simp at h

theorem charsMatch_ext : ∀ {p a : List Char}, charsMatch p a = true →
    ∀ b, charsMatch p (a ++ b) = true := by
  intro p
  induction p with
  | nil => intro a _ b; simp [charsMatch]
  | cons q ps ih =>
    intro a h b
    cases a with
    | nil => simp [charsMatch] at h
    | cons c cs =>
      rw [List.cons_append]
      simp only [charsMatch] at h ⊢
      split at h
      · next hqc => rw [if_pos hqc]; exact ih h b
      · simp at h

theorem charsMatch_left : ∀ {p a : List Char} (b : List Char),
    charsMatch p (a ++ b) = true → p.length ≤ a.length → charsMatch p a = true := by
  intro p
  induction p with
  | nil => intro a b _ _; simp [charsMatch]
  | cons q ps ih =>
    intro a b h hle
    cases a with
    | nil => simp at hle
    | cons c cs =>
      rw [List.cons_append] at h
      unfold charsMatch at h ⊢
      split at h
      · next hqc => rw [if_pos hqc]; exact ih b h (by simpa using hle)
      · simp at h

theorem charsMatchCI_ext : ∀ {p a : List Char}, charsMatchCI p a = true →
    ∀ b, charsMatchCI p (a ++ b) = true := by
  intro p
  induction p with
  | nil => intro a _ b; simp [charsMatchCI]
  | cons q ps ih =>
    intro a h b
    cases a with
    | nil => simp [charsMatchCI] at h
    | cons c cs =>
      rw [List.cons_append]
      simp only [charsMatchCI] at h ⊢
      split at h
      · next hqc => rw [if_pos hqc]; exact ih h b
      · simp at h

theorem charsMatchCI_take_false : ∀ {a p : List Char},
    charsMatchCI (p.take a.length) a = false → ∀ b, charsMatchCI p (a ++ b) = false := by
  intro a
  induction a with
  | nil => intro p h b; simp [charsMatchCI] at h
  | cons c cs ih =>
    intro p h b
    cases p with
    | nil => simp [charsMatchCI] at h
    | cons q qs =>
      simp only [List.length_cons, List.take_succ_cons] at h
      rw [List.cons_append]
      simp only [charsMatchCI] at h ⊢
      split at h
      · next hqc => rw [if_pos hqc]; exact ih h b
      · next hqc => rw [if_neg hqc]

theorem charsMatchCI_hash_head {ps : List Char} {c : Char} (h : lowerChar c ≠ '#')
    (cs : List Char) : charsMatchCI ('#' :: ps) (c :: cs) = false := by
  unfold charsMatchCI
  rw [if_neg]
  intro heq
  exact h (heq.symm.trans (by decide))

/-! The first-occurrence search used by the frontmatter regex. -/

theorem findSub_some : ∀ {s : List Char} {i : Nat} {pat : List Char},
    findSub pat s = some i →
    charsMatch pat (s.drop i) = true ∧ ∀ j, j < i → charsMatch pat (s.drop j) = false := by
  intro s
  induction s with
  | nil =>
    intro i pat h
    unfold findSub at h
    split at h
    · next hm =>
      obtain rfl : i = 0 := by simpa using h.symm
      exact ⟨hm, fun j hj => absurd hj (by omega)⟩
    · simp at h
  | cons c cs ih =>
    intro i pat h
    unfold findSub at h
    split at h
    · next hm =>
      obtain rfl : i = 0 := by simpa using h.symm
      exact ⟨by simpa using hm, fun j hj => absurd hj (by omega)⟩
    · next hm =>
      cases ho : findSub pat cs with
      | none => rw [ho] at h; simp at h
      | some i0 =>
        rw [ho] at h
        simp at h
        subst h
        obtain ⟨h1, h2⟩ := ih ho
        refine ⟨by simpa using h1, ?_⟩
        intro j hj
        cases j with
        | zero => simpa using (Bool.not_eq_true _).mp hm
        | succ j0 => simpa using h2 j0 (by omega)

theorem findSub_of : ∀ {s : List Char} {i : Nat} {pat : List Char},
    charsMatch pat (s.drop i) = true →
    (∀ j, j < i → charsMatch pat (s.drop j) = false) →
    findSub pat s = some i := by
  intro s
  induction s with
  | nil =>
    intro i pat h1 h2
    cases i with
    | zero => unfold findSub; rw [if_pos (by simpa using h1)]
    | succ i0 => exact absurd (h2 0 (by omega)) (by simpa using h1)
  | cons c cs ih =>
    intro i pat h1 h2
    cases i with
    | zero =>
      unfold findSub
      rw [if_pos (by simpa using h1)]
    | succ i0 =>
      unfold findSub
      rw [if_neg (by simpa using h2 0 (by omega))]
      rw [ih (by simpa using h1) (fun j hj => by simpa using h2 (j + 1) (by omega))]
      rfl

/-! Frontmatter splitting. -/

theorem frontmatterSplit_some {content fm body : List Char}
    (h : frontmatterSplit content = some (fm, body)) :
    ∃ i, charsMatch fmOpen content = true ∧ findSub fmClose (content.drop 4) = some i ∧
      fm = content.take (i + 8) ∧ body = content.drop (i + 8) := by
  unfold frontmatterSplit at h
  split at h
  · next hopen =>
    split at h
    · next i hfind =>
      refine ⟨i, hopen, hfind, ?_, ?_⟩
      · exact (Prod.mk.injEq _ _ _ _ ▸ (Option.some.injEq _ _ ▸ h)).1.symm
      · exact (Prod.mk.injEq _ _ _ _ ▸ (Option.some.injEq _ _ ▸ h)).2.symm
    · simp at h
  · simp at h

theorem frontmatterSplit_append {content fm body : List Char}
    (h : frontmatterSplit content = some (fm, body)) (X : List Char) :
    frontmatterSplit (fm ++ X) = some (fm, X) := by
  obtain ⟨i, hopen, hfind, hfm, hbody⟩ := frontmatterSplit_some h
  have hclose4 : fmClose.length = 4 := by decide
  have hopen4 : fmOpen.length = 4 := by decide
  have hmi := (findSub_some hfind).1
  have hlen : i + 8 ≤ content.length := by
    have := charsMatch_length hmi
    rw [hclose4] at this
    simp only [List.length_drop] at this
    omega
  have hfmlen : fm.length = i + 8 := by
    rw [hfm, List.length_take]; omega
  have hcontent : content = fm ++ body := by
    rw [hfm, hbody]; exact (List.take_append_drop _ _).symm
  have hopenfm : charsMatch fmOpen fm = true := by
    refine charsMatch_left body ?_ (by omega)
    rw [← hcontent]; exact hopen
  have hdrop_fmX : (fm ++ X).drop 4 = fm.drop 4 ++ X := by
    rw [List.drop_append_eq_append_drop]
    have : 4 - fm.length = 0 := by omega
    rw [this, List.drop_zero]
  unfold frontmatterSplit
  rw [if_pos (charsMatch_ext hopenfm X), hdrop_fmX]
  have hdropsub : ∀ j, j ≤ i → (fm.drop 4 ++ X).drop j = fm.drop (4 + j) ++ X := by
    intro j hj
    rw [List.drop_append_eq_append_drop]
    have h1 : j - (fm.drop 4).length = 0 := by
      simp only [List.length_drop]; omega
    rw [h1, List.drop_zero, List.drop_drop, Nat.add_comm]
  have hdropc : ∀ j, content.drop (4 + j) = fm.drop (4 + j) ++ body.drop (4 + j - fm.length) := by
    intro j
    rw [hcontent, List.drop_append_eq_append_drop]
  have hfind' : findSub fmClose (fm.drop 4 ++ X) = some i := by
    apply findSub_of
    · rw [hdropsub i (by omega)]
      have hcd : (content.drop 4).drop i = content.drop (4 + i) := by
        rw [List.drop_drop, Nat.add_comm]
      rw [hcd, hdropc i] at hmi
      have hfmpartlen : (fm.drop (4 + i)).length = 4 := by
        simp only [List.length_drop]; omega
      have := charsMatch_left _ hmi (by rw [hclose4, hfmpartlen])
      exact charsMatch_ext this X
    · intro j hj
      rw [hdropsub j (by omega)]
      cases hb : charsMatch fmClose (fm.drop (4 + j) ++ X) with
      | false => rfl
      | true =>
        have hfmpartlen : 4 ≤ (fm.drop (4 + j)).length := by
          simp only [List.length_drop]; omega
        have h5 := charsMatch_left _ hb (by rw [hclose4]; exact hfmpartlen)
        have h6 := charsMatch_ext h5 (body.drop (4 + j - fm.length))
        rw [← hdropc j] at h6
        have h7 := (findSub_some hfind).2 j hj
        rw [List.drop_drop] at h7
        rw [h6] at h7
        exact h7
  rw [hfind']
  have htake : (fm ++ X).take (i + 8) = fm := by
    rw [List.take_append_eq_append_take]
    have h1 : i + 8 - fm.length = 0 := by omega
    rw [h1, List.take_zero, List.append_nil, ← hfmlen, List.take_length]
  have hdrop : (fm ++ X).drop (i + 8) = X := by
    rw [List.drop_append_eq_append_drop]
    have h1 : i + 8 - fm.length = 0 := by omega
    rw [h1, List.drop_zero, ← hfmlen, List.drop_length, List.nil_append]
  show some ((fm ++ X).take (i + 8), (fm ++ X).drop (i + 8)) = some (fm, X)
  rw [htake, hdrop]

theorem frontmatterSplit_none_of {content : List Char}
    (h : charsMatch fmOpen content = false) : frontmatterSplit content = none := by
  unfold frontmatterSplit
  rw [h]
  simp

theorem frontmatterSplit_hash {l : List Char} :
    frontmatterSplit ('#' :: l) = none := by
  apply frontmatterSplit_none_of
  have : fmOpen = '-' :: ('-' :: ('-' :: ('\n' :: []))) := by decide
  rw [this]
  unfold charsMatch
  rw [if_neg (by decide)]

/-! Leading-newline stripping. -/

theorem dNL_nl (l : List Char) : dropLeadingNewlines ('\n' :: l) = dropLeadingNewlines l := by
  simp [dropLeadingNewlines]

theorem dNL_cons {c : Char} (h : c ≠ '\n') (l : List Char) :
    dropLeadingNewlines (c :: l) = c :: l := by
  simp [dropLeadingNewlines, h]

/-! The lookahead and lazy span of the summary regex. -/

theorem stopAt_cons_ne {c : Char} (h : c ≠ '\n') (l : List Char) : stopAt (c :: l) = false := by
  simp [stopAt, h]

theorem stopAt_nl (l : List Char) : stopAt ('\n' :: l) = nextHeading l := by
  simp [stopAt]

theorem nextHeading_cons_ne {c : Char} (h : c ≠ '#') (l : List Char) :
    nextHeading (c :: l) = false := by
  simp [nextHeading, h]

theorem nextHeading_head {l : List Char} (h : nextHeading l = true) : ∃ r, l = '#' :: r := by
  cases l with
  | nil => simp [nextHeading] at h
  | cons c r =>
    simp only [nextHeading] at h
    split at h
    · next hc => exact ⟨r, by rw [hc]⟩
    · simp at h

theorem spanUntilStop_decomp : ∀ l : List Char, (spanUntilStop l).1 ++ (spanUntilStop l).2 = l := by
  intro l
  induction l with
  | nil => simp [spanUntilStop]
  | cons c cs ih =>
    simp only [spanUntilStop]
    split
    · simp
    · simpa using ih

theorem spanUntilStop_stop {c : Char} {l : List Char} (h : stopAt (c :: l) = true) :
    spanUntilStop (c :: l) = ([], c :: l) := by
  simp [spanUntilStop, h]

theorem spanUntilStop_go {c : Char} {l : List Char} (h : stopAt (c :: l) = false) :
    spanUntilStop (c :: l) = (c :: (spanUntilStop l).1, (spanUntilStop l).2) := by
  simp [spanUntilStop, h]

theorem spanUntilStop_no_nl {S : List Char} (hS : '\n' ∉ S) (y : List Char) :
    spanUntilStop (S ++ y) = (S ++ (spanUntilStop y).1, (spanUntilStop y).2) := by
  induction S with
  | nil => simp
  | cons c cs ih =>
    have hc : c ≠ '\n' := fun he => hS (he ▸ List.mem_cons_self c cs)
    rw [List.cons_append, spanUntilStop_go (stopAt_cons_ne hc _),
      ih (fun hm => hS (List.mem_cons_of_mem c hm))]
    simp

/-! The summary-section matcher. -/

theorem summaryHeadTwo_eq :
    summaryHeadTwo = '#' :: '#' :: ' ' :: 's' :: 'u' :: 'm' :: 'm' :: 'a' :: 'r' :: 'y' :: [] := by
  decide

theorem summaryHeadOne_eq :
    summaryHeadOne = '#' :: ' ' :: 's' :: 'u' :: 'm' :: 'm' :: 'a' :: 'r' :: 'y' :: [] := by
  decide

theorem secData_eq :
    ("# Summary\n\n").data =
      '#' :: ' ' :: 'S' :: 'u' :: 'm' :: 'm' :: 'a' :: 'r' :: 'y' :: '\n' :: '\n' :: [] := by
  decide

theorem takeAlong_dropAlong : ∀ (p s : List Char), takeAlong p s ++ dropAlong p s = s := by
  intro p
  induction p with
  | nil => intro s; simp [takeAlong, dropAlong]
  | cons q ps ih =>
    intro s
    cases s with
    | nil => simp [takeAlong, dropAlong]
    | cons c cs =>
      simp only [takeAlong, dropAlong, List.cons_append]
      rw [ih]

theorem fsm_decomp : ∀ {s b m a : List Char},
    findSummaryMatch s = some (b, m, a) → s = b ++ m ++ a := by
  intro s
  induction s with
  | nil => intro b m a h; simp [findSummaryMatch] at h
  | cons c cs ih =>
    intro b m a h
    unfold findSummaryMatch at h
    split at h
    · simp only [Option.some.injEq, Prod.mk.injEq] at h
      obtain ⟨hb, hm2, ha⟩ := h
      subst hb; subst hm2; subst ha
      rw [List.nil_append, List.append_assoc, spanUntilStop_decomp, takeAlong_dropAlong]
    · split at h
      · simp only [Option.some.injEq, Prod.mk.injEq] at h
        obtain ⟨hb, hm2, ha⟩ := h
        subst hb; subst hm2; subst ha
        rw [List.nil_append, List.append_assoc, spanUntilStop_decomp, takeAlong_dropAlong]
      · cases ho : findSummaryMatch cs with
        | none => rw [ho] at h; simp at h
        | some t =>
          obtain ⟨b', m', a'⟩ := t
          rw [ho] at h
          simp only [Option.some.injEq, Prod.mk.injEq] at h
          obtain ⟨hb, hm2, ha⟩ := h
          subst hb; subst hm2; subst ha
          rw [List.cons_append, List.cons_append]
          exact congrArg _ (ih ho)

theorem fsm_cons_some {c : Char} {cs b m a : List Char}
    (h2 : charsMatchCI summaryHeadTwo (c :: cs) = false)
    (h1 : charsMatchCI summaryHeadOne (c :: cs) = false)
    (h : findSummaryMatch cs = some (b, m, a)) :
    findSummaryMatch (c :: cs) = some (c :: b, m, a) := by
  unfold findSummaryMatch
  rw [if_neg (by simp [h2]), if_neg (by simp [h1]), h]

theorem fsm_cons_none {c : Char} {cs : List Char}
    (h2 : charsMatchCI summaryHeadTwo (c :: cs) = false)
    (h1 : charsMatchCI summaryHeadOne (c :: cs) = false)
    (h : findSummaryMatch cs = none) :
    findSummaryMatch (c :: cs) = none := by
  unfold findSummaryMatch
  rw [if_neg (by simp [h2]), if_neg (by simp [h1]), h]

theorem fsm_none_of_lower {l : List Char} (h : ∀ c ∈ l, lowerChar c ≠ '#') :
    findSummaryMatch l = none := by
  induction l with
  | nil => rfl
  | cons c cs ih =>
    have hc := h c (List.mem_cons_self c cs)
    have h2 : charsMatchCI summaryHeadTwo (c :: cs) = false := by
      rw [summaryHeadTwo_eq]; exact charsMatchCI_hash_head hc cs
    have h1 : charsMatchCI summaryHeadOne (c :: cs) = false := by
      rw [summaryHeadOne_eq]; exact charsMatchCI_hash_head hc cs
    exact fsm_cons_none h2 h1 (ih (fun d hd => h d (List.mem_cons_of_mem c hd)))

theorem fsm_cons_nl {cs b m a : List Char} (h : findSummaryMatch cs = some (b, m, a)) :
    findSummaryMatch ('\n' :: cs) = some ('\n' :: b, m, a) := by
  refine fsm_cons_some ?_ ?_ h
  · rw [summaryHeadTwo_eq]; exact charsMatchCI_hash_head (by decide) cs
  · rw [summaryHeadOne_eq]; exact charsMatchCI_hash_head (by decide) cs

theorem fsm_at_secHead (rest : List Char) :
    findSummaryMatch ('#' :: ' ' :: 'S' :: 'u' :: 'm' :: 'm' :: 'a' :: 'r' :: 'y' :: rest) =
      some ([],
        '#' :: ' ' :: 'S' :: 'u' :: 'm' :: 'm' :: 'a' :: 'r' :: 'y' :: (spanUntilStop rest).1,
        (spanUntilStop rest).2) := by
  have h2 : charsMatchCI summaryHeadTwo
      ('#' :: ' ' :: ('S' :: 'u' :: 'm' :: 'm' :: 'a' :: 'r' :: 'y' :: rest)) = false := by
    exact charsMatchCI_take_false (a := '#' :: ' ' :: []) (by decide) _
  have h1 : charsMatchCI summaryHeadOne
      ('#' :: ' ' :: 'S' :: 'u' :: 'm' :: 'm' :: 'a' :: 'r' :: 'y' :: rest) = true := by
    have hsplit : ('#' :: ' ' :: 'S' :: 'u' :: 'm' :: 'm' :: 'a' :: 'r' :: 'y' :: rest) =
        ('#' :: ' ' :: 'S' :: 'u' :: 'm' :: 'm' :: 'a' :: 'r' :: 'y' :: []) ++ rest := rfl
    rw [hsplit]
    exact charsMatchCI_ext (by decide) rest
  unfold findSummaryMatch
  rw [if_neg (by simp [h2]), if_pos h1]
  simp only [summaryHeadOne_eq, takeAlong, dropAlong, List.cons_append, List.nil_append]

/-! Computation of the matcher on a freshly inserted summary block. -/

theorem span_tail_nl : spanUntilStop ('\n' :: []) = (('\n' :: []), []) := by decide

theorem span_tail_nn {TB : List Char} (h : nextHeading TB = true) :
    spanUntilStop ('\n' :: '\n' :: TB) = (('\n' :: []), '\n' :: TB) := by
  have h1 : stopAt ('\n' :: '\n' :: TB) = false := by
    rw [stopAt_nl]; exact nextHeading_cons_ne (by decide) _
  have h2 : stopAt ('\n' :: TB) = true := by rw [stopAt_nl]; exact h
  rw [spanUntilStop_go h1, spanUntilStop_stop h2]

theorem span_sec_tail {S tail : List Char} (hnl : '\n' ∉ S) (hhd : S.head? ≠ some '#')
    (htl : tail.head? = some '\n') :
    spanUntilStop ('\n' :: '\n' :: (S ++ tail)) =
      ('\n' :: '\n' :: (S ++ (spanUntilStop tail).1), (spanUntilStop tail).2) := by
  have hstep2 : stopAt ('\n' :: (S ++ tail)) = false := by
    rw [stopAt_nl]
    cases S with
    | nil =>
      cases tail with
      | nil => simp at htl
      | cons t ts =>
        simp only [List.head?_cons, Option.some.injEq] at htl
        subst htl
        rw [List.nil_append]
        exact nextHeading_cons_ne (by decide) _
    | cons c cs =>
      rw [List.cons_append]
      apply nextHeading_cons_ne
      intro he
      exact hhd (by simp [he])
  have hstep1 : stopAt ('\n' :: '\n' :: (S ++ tail)) = false := by
    rw [stopAt_nl]
    exact nextHeading_cons_ne (by decide) _
  rw [spanUntilStop_go hstep1, spanUntilStop_go hstep2, spanUntilStop_no_nl hnl]

theorem fsm_sec_general {S tail mt aft : List Char} (hnl : '\n' ∉ S)
    (hhd : S.head? ≠ some '#') (htl : tail.head? = some '\n')
    (hspan : spanUntilStop tail = (mt, aft)) :
    findSummaryMatch (("# Summary\n\n").data ++ S ++ tail) =
      some ([], ("# Summary\n\n").data ++ S ++ mt, aft) := by
  simp only [secData_eq, List.cons_append, List.nil_append, List.append_assoc]
  rw [fsm_at_secHead]
  rw [span_sec_tail hnl hhd htl, hspan]

/-! Unfolding the two stages of insertSummarySection. -/

theorem iss_no_fm {content summary : List Char} (h : frontmatterSplit content = none) :
    insertSummarySection content summary =
      dropLeadingNewlines (updatedBody content (("# Summary\n\n").data ++ jsTrim summary)) := by
  unfold insertSummarySection
  rw [h]

theorem iss_fm {content summary fm body : List Char}
    (h : frontmatterSplit content = some (fm, body)) :
    insertSummarySection content summary =
      fm ++ updatedBody body (("# Summary\n\n").data ++ jsTrim summary) := by
  unfold insertSummarySection
  rw [h]

theorem updatedBody_insert_pos {body sec : List Char} (hn : findSummaryMatch body = none)
    (ht : jsTrim body ≠ []) :
    updatedBody body sec = ("\n\n").data ++ sec ++ ("\n\n").data ++ jsTrim body := by
  simp only [updatedBody, hn]
  rw [if_pos ht]

theorem updatedBody_insert_nil {body sec : List Char} (hn : findSummaryMatch body = none)
    (ht : jsTrim body = []) :
    updatedBody body sec = ("\n\n").data ++ sec ++ ("\n").data := by
  simp only [updatedBody, hn]
  rw [if_neg (by simp [ht])]

theorem updatedBody_replace {body sec b m a : List Char}
    (hm : findSummaryMatch body = some (b, m, a)) :
    updatedBody body sec =
      if dropLeadingNewlines a ≠ [] then b ++ sec ++ ("\n\n").data ++ dropLeadingNewlines a
      else b ++ sec ++ ("\n").data := by
  simp only [updatedBody, hm]

/-! The merged section is a fixed point of the body update. -/

theorem updatedBody_fix_tb {S TB : List Char} (hnl : '\n' ∉ S) (hhd : S.head? ≠ some '#')
    (hTB : nextHeading TB = true) :
    updatedBody (("# Summary\n\n").data ++ S ++ ('\n' :: '\n' :: TB))
        (("# Summary\n\n").data ++ S) =
      ("# Summary\n\n").data ++ S ++ ('\n' :: '\n' :: TB) := by
  obtain ⟨r, hr⟩ := nextHeading_head hTB
  have hfsm := fsm_sec_general hnl hhd (by simp) (span_tail_nn hTB)
  rw [updatedBody_replace hfsm]
  have hd : dropLeadingNewlines ('\n' :: TB) = TB := by
    rw [dNL_nl, hr]; exact dNL_cons (by decide) r
  rw [hd]
  rw [if_pos (by rw [hr]; exact List.cons_ne_nil _ _)]
  rw [show ("\n\n").data = '\n' :: '\n' :: [] from by decide]
  simp [List.append_assoc]

theorem updatedBody_fix_nl {S : List Char} (hnl : '\n' ∉ S) (hhd : S.head? ≠ some '#') :
    updatedBody (("# Summary\n\n").data ++ S ++ ('\n' :: []))
        (("# Summary\n\n").data ++ S) =
      ("# Summary\n\n").data ++ S ++ ('\n' :: []) := by
  have hfsm := fsm_sec_general hnl hhd (by simp) span_tail_nl
  rw [updatedBody_replace hfsm]
  rw [if_neg (by simp [dropLeadingNewlines])]
  rw [show ("\n").data = '\n' :: [] from by decide]
  simp [List.append_assoc]

theorem updatedBody_fix_nn_tb {S TB : List Char} (hnl : '\n' ∉ S) (hhd : S.head? ≠ some '#')
    (hTB : nextHeading TB = true) :
    updatedBody ('\n' :: '\n' :: (("# Summary\n\n").data ++ S ++ ('\n' :: '\n' :: TB)))
        (("# Summary\n\n").data ++ S) =
      '\n' :: '\n' :: (("# Summary\n\n").data ++ S ++ ('\n' :: '\n' :: TB)) := by
  obtain ⟨r, hr⟩ := nextHeading_head hTB
  have hfsm := fsm_cons_nl (fsm_cons_nl (fsm_sec_general hnl hhd (by simp) (span_tail_nn hTB)))
  rw [updatedBody_replace hfsm]
  have hd : dropLeadingNewlines ('\n' :: TB) = TB := by
    rw [dNL_nl, hr]; exact dNL_cons (by decide) r
  rw [hd]
  rw [if_pos (by rw [hr]; exact List.cons_ne_nil _ _)]
  rw [show ("\n\n").data = '\n' :: '\n' :: [] from by decide]
  simp [List.append_assoc]

theorem updatedBody_fix_nn_nl {S : List Char} (hnl : '\n' ∉ S) (hhd : S.head? ≠ some '#') :
    updatedBody ('\n' :: '\n' :: (("# Summary\n\n").data ++ S ++ ('\n' :: [])))
        (("# Summary\n\n").data ++ S) =
      '\n' :: '\n' :: (("# Summary\n\n").data ++ S ++ ('\n' :: [])) := by
  have hfsm := fsm_cons_nl (fsm_cons_nl (fsm_sec_general hnl hhd (by simp) span_tail_nl))
  rw [updatedBody_replace hfsm]
  rw [if_neg (by simp [dropLeadingNewlines])]
  rw [show ("\n").data = '\n' :: [] from by decide]
  simp [List.append_assoc]

/-! Facts about trimming. -/

theorem jsTrim_eq_nil_iff {l : List Char} : jsTrim l = [] ↔ ∀ c ∈ l, isWS c = true := by
  unfold jsTrim
  rw [List.reverse_eq_nil_iff, List.dropWhile_eq_nil_iff]
  constructor
  · intro h c hc
    rw [← List.takeWhile_append_dropWhile isWS l] at hc
    rcases List.mem_append.mp hc with h1 | h2
    · exact List.mem_takeWhile_imp h1
    · exact h c (List.mem_reverse.mpr h2)
  · intro h c hc
    have hmem : c ∈ l := by
      rw [← List.takeWhile_append_dropWhile isWS l]
      exact List.mem_append.mpr (Or.inr (List.mem_reverse.mp hc))
    exact h c hmem

theorem jsTrim_ne_nil {l : List Char} {c0 : Char} (hc : c0 ∈ l) (hw : isWS c0 = false) :
    jsTrim l ≠ [] := by
  intro h
  have hws := (jsTrim_eq_nil_iff.mp h) c0 hc
  rw [hw] at hws
  exact Bool.noConfusion hws

theorem charsMatch_decomp : ∀ {p l : List Char}, charsMatch p l = true → ∃ r, l = p ++ r := by
  intro p
  induction p with
  | nil => intro l _; exact ⟨l, rfl⟩
  | cons q ps ih =>
    intro l h
    cases l with
    | nil => simp [charsMatch] at h
    | cons c cs =>
      simp only [charsMatch] at h
      split at h
      · next hqc =>
        obtain ⟨r, hr⟩ := ih h
        exact ⟨r, by rw [hr, hqc, List.cons_append]⟩
      · simp at h

theorem ws_lower_ne_hash {c : Char} (h : isWS c = true) : lowerChar c ≠ '#' := by
  unfold isWS at h
  split_ifs at h with h1 h2 h3 h4 h5 h6
  · subst h1; decide
  · subst h2; decide
  · subst h3; decide
  · subst h4; decide
  · subst h5; decide
  · subst h6; decide

theorem fmSplit_none_of_ws {content : List Char} (h : ∀ c ∈ content, isWS c = true) :
    frontmatterSplit content = none := by
  apply frontmatterSplit_none_of
  cases hb : charsMatch fmOpen content with
  | false => rfl
  | true =>
    obtain ⟨r, hr⟩ := charsMatch_decomp hb
    have hd : isWS '-' = true := by
      refine h '-' ?_
      rw [hr, show fmOpen = '-' :: '-' :: '-' :: '\n' :: [] from by decide]
      simp
    exact absurd hd (by decide)

theorem jsTrim_dashes (r : List Char) :
    ∃ t, jsTrim ('-' :: '-' :: '-' :: r) = '-' :: '-' :: '-' :: t := by
  unfold jsTrim
  have h1 : List.dropWhile isWS ('-' :: '-' :: '-' :: r) = '-' :: '-' :: '-' :: r := by
    rw [List.dropWhile_cons]
    rw [if_neg (by decide)]
  rw [h1]
  have h2 : ('-' :: '-' :: '-' :: r).reverse = r.reverse ++ ('-' :: '-' :: '-' :: []) := by
    simp
  rw [h2, List.dropWhile_append]
  split
  · refine ⟨[], ?_⟩
    rw [show List.dropWhile isWS ('-' :: '-' :: '-' :: []) = '-' :: '-' :: '-' :: [] from by decide]
    decide
  · refine ⟨(List.dropWhile isWS r.reverse).reverse, ?_⟩
    rw [List.reverse_append]
    rfl

/-! The insert branch in closed form. -/

theorem dNL_nn_sec (X : List Char) :
    dropLeadingNewlines ('\n' :: '\n' :: (("# Summary\n\n").data ++ X)) =
      ("# Summary\n\n").data ++ X := by
  rw [dNL_nl, dNL_nl, secData_eq]
  simp only [List.cons_append]
  exact dNL_cons (by decide) _

theorem insert_formula {content summary : List Char}
    (hfm : frontmatterSplit content = none)
    (hno : findSummaryMatch content = none)
    (ht : jsTrim content ≠ []) :
    insertSummarySection content summary =
      ("# Summary\n\n").data ++ jsTrim summary ++ ("\n\n").data ++ jsTrim content := by
  rw [iss_no_fm hfm, updatedBody_insert_pos hno ht]
  have harg : ("\n\n").data ++ (("# Summary\n\n").data ++ jsTrim summary) ++ ("\n\n").data ++
      jsTrim content =
      '\n' :: '\n' :: (("# Summary\n\n").data ++
        (jsTrim summary ++ (("\n\n").data ++ jsTrim content))) := by
    rw [show ("\n\n").data = '\n' :: '\n' :: [] from by decide]
    simp [List.append_assoc]
  rw [harg, dNL_nn_sec]
  simp [List.append_assoc]

theorem insert_formula_nil {content summary : List Char}
    (hfm : frontmatterSplit content = none)
    (hno : findSummaryMatch content = none)
    (ht : jsTrim content = []) :
    insertSummarySection content summary =
      ("# Summary\n\n").data ++ jsTrim summary ++ ("\n").data := by
  rw [iss_no_fm hfm, updatedBody_insert_nil hno ht]
  have harg : ("\n\n").data ++ (("# Summary\n\n").data ++ jsTrim summary) ++ ("\n").data =
      '\n' :: '\n' :: (("# Summary\n\n").data ++ (jsTrim summary ++ ("\n").data)) := by
    rw [show ("\n\n").data = '\n' :: '\n' :: [] from by decide]
    simp [List.append_assoc]
  rw [harg, dNL_nn_sec]
  simp [List.append_assoc]

theorem dNL_dNL (a : List Char) :
    dropLeadingNewlines (dropLeadingNewlines a) = dropLeadingNewlines a := by
  induction a with
  | nil => rfl
  | cons c r ih =>
    by_cases hc : c = '\n'
    · subst hc; rw [dNL_nl]; exact ih
    · rw [dNL_cons hc, dNL_cons hc]

theorem dNL_append_suffix : ∀ (X : List Char) {Y : List Char},
    dropLeadingNewlines Y = Y → ∃ p, dropLeadingNewlines (X ++ Y) = p ++ Y := by
  intro X
  induction X with
  | nil => intro Y hY; exact ⟨[], by simpa using hY⟩
  | cons c X' ih =>
    intro Y hY
    by_cases hc : c = '\n'
    · subst hc
      rw [List.cons_append, dNL_nl]
      exact ih hY
    · rw [List.cons_append, dNL_cons hc]
      exact ⟨c :: X', by rw [List.cons_append]⟩

/-! Claims about the summary merger. -/

/-- Claim C1, as frozen, is false on the code: the summary regex is neither
anchored to a line start nor bounded to the literal heading text, so the
content "text # summary blah" (which contains no heading literally equal to
"summary") still triggers the replacement branch instead of inserting the
new block at the top of the note. -/
theorem C1_false_at_inline_match :
    insertSummarySection (("text # summary blah").data) (("S").data) =
      ("text # Summary\n\nS\n").data ∧
    insertSummarySection (("text # summary blah").data) (("S").data) ≠
      ("# Summary\n\nS\n\ntext # summary blah").data :=
  ⟨by decide, by decide⟩

/-- Claim C1 (amended): for a body without frontmatter, the replacement
branch fires exactly when the regex matcher finds a span: the body splits as
before ++ matched ++ after, and the result keeps the text before the span,
replaces the span with the canonical block of "# Summary", a blank line and
the trimmed summary, and keeps the text after the span, rejoined after
stripping its leading newlines with exactly one blank line (or a single
trailing newline when nothing follows). -/
theorem C1_replace_semantics (body summary b m a : List Char)
    (hfm : frontmatterSplit body = none)
    (hmatch : findSummaryMatch body = some (b, m, a)) :
    body = b ++ m ++ a ∧
    insertSummarySection body summary =
      dropLeadingNewlines (b ++ (("# Summary\n\n").data ++ jsTrim summary) ++
        (if dropLeadingNewlines a = [] then ("\n").data
         else ("\n\n").data ++ dropLeadingNewlines a)) := by
  refine ⟨fsm_decomp hmatch, ?_⟩
  rw [iss_no_fm hfm, updatedBody_replace hmatch]
  by_cases hA : dropLeadingNewlines a = []
  · rw [if_neg (by simp [hA]), if_pos hA]
  · rw [if_pos hA, if_neg hA]
    simp [List.append_assoc]

/-- Witness for C1_replace_semantics on the case-normalisation example: a
note with a "## SUMMARY" section between two other sections. -/
theorem C1_replace_semantics_witness :
    (frontmatterSplit (("# A\n\n## SUMMARY\n\nold stuff\n\n# B\n\nx").data) = none ∧
     findSummaryMatch (("# A\n\n## SUMMARY\n\nold stuff\n\n# B\n\nx").data) =
       some ((("# A\n\n").data), (("## SUMMARY\n\nold stuff\n").data), (("\n# B\n\nx").data))) ∧
    (("# A\n\n## SUMMARY\n\nold stuff\n\n# B\n\nx").data =
       ("# A\n\n").data ++ ("## SUMMARY\n\nold stuff\n").data ++ ("\n# B\n\nx").data ∧
     insertSummarySection (("# A\n\n## SUMMARY\n\nold stuff\n\n# B\n\nx").data)
         (("New.").data) =
       dropLeadingNewlines (("# A\n\n").data ++
         (("# Summary\n\n").data ++ jsTrim (("New.").data)) ++
         (if dropLeadingNewlines (("\n# B\n\nx").data) = [] then ("\n").data
          else ("\n\n").data ++ dropLeadingNewlines (("\n# B\n\nx").data)))) :=
  ⟨⟨by decide, by decide⟩,
    C1_replace_semantics _ _ _ _ _ (by decide) (by decide)⟩

/-- Claim C2, as frozen, is false on the code: insertSummarySection is not
idempotent for every input.  On the note "Just text." the first application
inserts the summary block above the text, and the second application's
summary regex swallows the text (no heading follows the block), deleting it. -/
theorem C2_false_at_plain_text :
    insertSummarySection
        (insertSummarySection (("Just text.").data) (("S").data)) (("S").data) ≠
      insertSummarySection (("Just text.").data) (("S").data) := by
  decide

/-- Claim C2 (amended): insertSummarySection is idempotent on its insertion
branch provided the merged note keeps the block boundary recognisable: the
body (after any frontmatter) has no existing summary match and its trimmed
text is empty or starts with a hash-run heading, and the trimmed summary is
newline-free and does not start with a hash. -/
theorem C2_idempotent_restricted (content summary : List Char)
    (hnl : '\n' ∉ jsTrim summary)
    (hhd : (jsTrim summary).head? ≠ some '#')
    (hnomatch : findSummaryMatch (bodyOf content) = none)
    (hbody : jsTrim (bodyOf content) = [] ∨ nextHeading (jsTrim (bodyOf content)) = true) :
    insertSummarySection (insertSummarySection content summary) summary =
      insertSummarySection content summary := by
  cases hfm : frontmatterSplit content with
  | none =>
    have hb : bodyOf content = content := by unfold bodyOf; rw [hfm]
    rw [hb] at hnomatch hbody
    rcases hbody with ht | ht
    · rw [insert_formula_nil hfm hnomatch ht]
      rw [show ("\n").data = '\n' :: [] from by decide]
      have hfm2 : frontmatterSplit
          (("# Summary\n\n").data ++ jsTrim summary ++ ('\n' :: [])) = none := by
        rw [secData_eq]
        simp only [List.cons_append]
        exact frontmatterSplit_hash
      rw [iss_no_fm hfm2, updatedBody_fix_nl hnl hhd]
      rw [secData_eq]
      simp only [List.cons_append]
      exact dNL_cons (by decide) _
    · have htne : jsTrim content ≠ [] := by
        obtain ⟨r, hr⟩ := nextHeading_head ht
        rw [hr]; exact List.cons_ne_nil _ _
      rw [insert_formula hfm hnomatch htne]
      have hshape : ("# Summary\n\n").data ++ jsTrim summary ++ ("\n\n").data ++
          jsTrim content =
          ("# Summary\n\n").data ++ jsTrim summary ++ ('\n' :: '\n' :: jsTrim content) := by
        rw [show ("\n\n").data = '\n' :: '\n' :: [] from by decide]
        simp [List.append_assoc]
      rw [hshape]
      have hfm2 : frontmatterSplit (("# Summary\n\n").data ++ jsTrim summary ++
          ('\n' :: '\n' :: jsTrim content)) = none := by
        rw [secData_eq]
        simp only [List.cons_append]
        exact frontmatterSplit_hash
      rw [iss_no_fm hfm2, updatedBody_fix_tb hnl hhd ht]
      rw [secData_eq]
      simp only [List.cons_append]
      exact dNL_cons (by decide) _
  | some pair =>
    obtain ⟨fm, body⟩ := pair
    have hb : bodyOf content = body := by unfold bodyOf; rw [hfm]
    rw [hb] at hnomatch hbody
    rw [iss_fm hfm]
    rcases hbody with ht | ht
    · rw [updatedBody_insert_nil hnomatch ht]
      have hsh : ("\n\n").data ++ (("# Summary\n\n").data ++ jsTrim summary) ++ ("\n").data =
          '\n' :: '\n' :: (("# Summary\n\n").data ++ jsTrim summary ++ ('\n' :: [])) := by
        rw [show ("\n\n").data = '\n' :: '\n' :: [] from by decide,
          show ("\n").data = '\n' :: [] from by decide]
        simp [List.append_assoc]
      rw [hsh]
      rw [iss_fm (frontmatterSplit_append hfm _)]
      rw [updatedBody_fix_nn_nl hnl hhd]
    · have htne : jsTrim body ≠ [] := by
        obtain ⟨r, hr⟩ := nextHeading_head ht
        rw [hr]; exact List.cons_ne_nil _ _
      rw [updatedBody_insert_pos hnomatch htne]
      have hsh : ("\n\n").data ++ (("# Summary\n\n").data ++ jsTrim summary) ++
          ("\n\n").data ++ jsTrim body =
          '\n' :: '\n' :: (("# Summary\n\n").data ++ jsTrim summary ++
            ('\n' :: '\n' :: jsTrim body)) := by
        rw [show ("\n\n").data = '\n' :: '\n' :: [] from by decide]
        simp [List.append_assoc]
      rw [hsh]
      rw [iss_fm (frontmatterSplit_append hfm _)]
      rw [updatedBody_fix_nn_tb hnl hhd ht]

/-- Witness for C2_idempotent_restricted on the §8 example note. -/
theorem C2_idempotent_restricted_witness :
    insertSummarySection
        (insertSummarySection (("# My Note\n\nSome content here.").data)
          (("This is the summary.").data))
        (("This is the summary.").data) =
      insertSummarySection (("# My Note\n\nSome content here.").data)
        (("This is the summary.").data) :=
  C2_idempotent_restricted _ _ (by decide) (by decide) (by decide) (by decide)

/-- Claim C6: on a note without frontmatter, without an existing summary
match and with non-blank trimmed body, the merge returns the canonical
block, one blank line, then the trimmed body. -/
theorem C6_insert_before_content (content summary : List Char)
    (hfm : frontmatterSplit content = none)
    (hno : findSummaryMatch content = none)
    (ht : jsTrim content ≠ []) :
    insertSummarySection content summary =
      ("# Summary\n\n").data ++ jsTrim summary ++ ("\n\n").data ++ jsTrim content :=
  insert_formula hfm hno ht

/-- Witness for C6_insert_before_content on the §8 example. -/
theorem C6_insert_before_content_witness :
    insertSummarySection (("# My Note\n\nSome content here.").data)
        (("This is the summary.").data) =
      ("# Summary\n\nThis is the summary.\n\n# My Note\n\nSome content here.").data := by
  have h := C6_insert_before_content (("# My Note\n\nSome content here.").data)
    (("This is the summary.").data) (by decide) (by decide) (by decide)
  rw [h]
  decide

/-- Claim C7: whenever the frontmatter regex matches, the output starts with
the detected frontmatter byte-for-byte; and on the §8 example the result is
the frontmatter followed by a blank line and the summary block. -/
theorem C7_frontmatter_preserved :
    (∀ content summary fm rest : List Char,
      frontmatterSplit content = some (fm, rest) →
      ∃ t, insertSummarySection content summary = fm ++ t) ∧
    insertSummarySection (("---\ntitle: Note\n---").data) (("S").data) =
      ("---\ntitle: Note\n---").data ++ ("\n\n# Summary\n\nS\n").data := by
  constructor
  · intro content summary fm rest h
    rw [iss_fm h]
    exact ⟨_, rfl⟩
  · decide

/-- Witness for C7_frontmatter_preserved: the general part applied to the
concrete frontmatter note of §8. -/
theorem C7_frontmatter_preserved_witness :
    ∃ t, insertSummarySection (("---\ntitle: Note\n---").data) (("S").data) =
      ("---\ntitle: Note\n---").data ++ t :=
  C7_frontmatter_preserved.1 (("---\ntitle: Note\n---").data) (("S").data)
    (("---\ntitle: Note\n---").data) (("").data) (by decide)

/-- Claim C8: on a note whose whole content trims to nothing, the merge
returns the canonical block with a single trailing newline and nothing else. -/
theorem C8_empty_body (content summary : List Char) (ht : jsTrim content = []) :
    insertSummarySection content summary =
      ("# Summary\n\n").data ++ jsTrim summary ++ ("\n").data := by
  have hws := jsTrim_eq_nil_iff.mp ht
  have hfm := fmSplit_none_of_ws hws
  have hno := fsm_none_of_lower (fun c hc => ws_lower_ne_hash (hws c hc))
  exact insert_formula_nil hfm hno ht

/-- Witness for C8_empty_body on the empty note of §8. -/
theorem C8_empty_body_witness :
    insertSummarySection (("").data) (("hi").data) = ("# Summary\n\nhi\n").data := by
  have h := C8_empty_body (("").data) (("hi").data) (by decide)
  rw [h]
  decide

/-- Claim C9: when the body contains a summary match whose trailing part
still contains another summary match, only the first span is replaced: the
cleaned trailing part survives verbatim as a suffix of the output, so the
output can contain a second summary heading. -/
theorem C9_first_match_only (content summary b m a : List Char)
    (hfm : frontmatterSplit content = none)
    (hmatch : findSummaryMatch content = some (b, m, a))
    (hsecond : findSummaryMatch (dropLeadingNewlines a) ≠ none) :
    (∃ p, insertSummarySection content summary = p ++ dropLeadingNewlines a) ∧
    insertSummarySection content summary =
      dropLeadingNewlines (b ++ (("# Summary\n\n").data ++ jsTrim summary) ++
        ("\n\n").data ++ dropLeadingNewlines a) := by
  have hA : dropLeadingNewlines a ≠ [] := by
    intro hnil
    rw [hnil] at hsecond
    exact hsecond rfl
  rw [iss_no_fm hfm, updatedBody_replace hmatch, if_pos hA]
  exact ⟨dNL_append_suffix _ (dNL_dNL a), rfl⟩

/-- Witness for C9_first_match_only on a note with two summary sections. -/
theorem C9_first_match_only_witness :
    (frontmatterSplit (("# one\n\n# summary\nold\n\n# two\n\n# summary\nsecond old").data)
        = none ∧
     findSummaryMatch (("# one\n\n# summary\nold\n\n# two\n\n# summary\nsecond old").data) =
       some ((("# one\n\n").data), (("# summary\nold\n").data),
         (("\n# two\n\n# summary\nsecond old").data))) ∧
    ((∃ p, insertSummarySection
        (("# one\n\n# summary\nold\n\n# two\n\n# summary\nsecond old").data) (("N").data) =
        p ++ dropLeadingNewlines (("\n# two\n\n# summary\nsecond old").data)) ∧
     insertSummarySection
        (("# one\n\n# summary\nold\n\n# two\n\n# summary\nsecond old").data) (("N").data) =
       dropLeadingNewlines ((("# one\n\n").data) ++
         (("# Summary\n\n").data ++ jsTrim (("N").data)) ++ ("\n\n").data ++
         dropLeadingNewlines (("\n# two\n\n# summary\nsecond old").data))) :=
  ⟨⟨by decide, by decide⟩,
    C9_first_match_only (("# one\n\n# summary\nold\n\n# two\n\n# summary\nsecond old").data)
      (("N").data) (("# one\n\n").data) (("# summary\nold\n").data)
      (("\n# two\n\n# summary\nsecond old").data) (by decide) (by decide) (by decide)⟩

/-- Claim C10, as frozen, is false on the code: on content whose first line
is three dashes without a closing delimiter the whole content is indeed
treated as body, but when that body contains a summary match the block is
spliced at the match, not at the very start of the document. -/
theorem C10_false_at_summary_body :
    insertSummarySection (("---\n# summary old").data) (("S").data) =
      ("---\n# Summary\n\nS\n").data ∧
    insertSummarySection (("---\n# summary old").data) (("S").data) ≠
      ("# Summary\n\nS\n\n---\n# summary old").data :=
  ⟨by decide, by decide⟩

/-- Claim C10 (amended): when the content opens with the dash-newline
delimiter but no closing delimiter follows, no frontmatter is detected; and
when additionally no summary match exists in the content, the block is
inserted at the very start of the document, above the unterminated dashes. -/
theorem C10_unterminated_frontmatter (content summary : List Char)
    (hopen : charsMatch fmOpen content = true)
    (hnoclose : findSub fmClose (content.drop 4) = none)
    (hno : findSummaryMatch content = none) :
    frontmatterSplit content = none ∧
    ∃ t, jsTrim content = '-' :: '-' :: '-' :: t ∧
      insertSummarySection content summary =
        ("# Summary\n\n").data ++ jsTrim summary ++ ("\n\n").data ++ jsTrim content := by
  have hfm : frontmatterSplit content = none := by
    unfold frontmatterSplit
    rw [if_pos hopen, hnoclose]
  obtain ⟨r, hr⟩ := charsMatch_decomp hopen
  rw [show fmOpen = '-' :: '-' :: '-' :: '\n' :: [] from by decide] at hr
  have hr' : content = '-' :: '-' :: '-' :: ('\n' :: r) := by rw [hr]; rfl
  obtain ⟨t, htr⟩ := jsTrim_dashes ('\n' :: r)
  rw [← hr'] at htr
  have hne : jsTrim content ≠ [] := by rw [htr]; exact List.cons_ne_nil _ _
  exact ⟨hfm, t, htr, insert_formula hfm hno hne⟩

/-- Witness for C10_unterminated_frontmatter on an unterminated dash block. -/
theorem C10_unterminated_frontmatter_witness :
    frontmatterSplit (("---\nstuff").data) = none ∧
    ∃ t, jsTrim (("---\nstuff").data) = '-' :: '-' :: '-' :: t ∧
      insertSummarySection (("---\nstuff").data) (("S").data) =
        ("# Summary\n\n").data ++ jsTrim (("S").data) ++ ("\n\n").data ++
          jsTrim (("---\nstuff").data) :=
  C10_unterminated_frontmatter _ _ (by decide) (by decide) (by decide)

/-! Claims about the LLM client. -/

theorem isNull_false {j : JsonValue} (h : j ≠ JsonValue.null) : isNullJson j = false := by
  cases j
  case null => exact absurd rfl h
  all_goals rfl

/-- Claim C4: the request body always carries the model, the single
user-role message and stream set to false; the openai shape adds top-level
temperature and max_tokens and no options, the ollama shape nests both
generation parameters under options and has no top-level ones. -/
theorem C4_request_shape (config : LLMConfig) (prompt : List Char) :
    jsonLookup (("model").data) (buildRequestBody config prompt) =
      some (.str config.model) ∧
    jsonLookup (("messages").data) (buildRequestBody config prompt) =
      some (.arr [.obj [(("role").data, .str (("user").data)),
        (("content").data, .str prompt)]]) ∧
    jsonLookup (("stream").data) (buildRequestBody config prompt) = some (.bool false) ∧
    (config.provider = .openai →
      jsonLookup (("temperature").data) (buildRequestBody config prompt) =
        some (.num config.temperature) ∧
      jsonLookup (("max_tokens").data) (buildRequestBody config prompt) =
        some (.num config.maxTokens) ∧
      jsonLookup (("options").data) (buildRequestBody config prompt) = none) ∧
    (config.provider = .ollama →
      jsonLookup (("options").data) (buildRequestBody config prompt) =
        some (.obj [(("temperature").data, .num config.temperature),
          (("num_predict").data, .num config.maxTokens)]) ∧
      jsonLookup (("temperature").data) (buildRequestBody config prompt) = none ∧
      jsonLookup (("max_tokens").data) (buildRequestBody config prompt) = none) := by
  obtain ⟨prov, bu, ep, mo, hn, hv, te, mt, ts⟩ := config
  cases prov
  case ollama =>
    refine ⟨rfl, rfl, rfl, ?_, ?_⟩
    · intro h; exact LLMProvider.noConfusion h
    · intro _; exact ⟨rfl, rfl, rfl⟩
  case openai =>
    refine ⟨rfl, rfl, rfl, ?_, ?_⟩
    · intro _; exact ⟨rfl, rfl, rfl⟩
    · intro h; exact LLMProvider.noConfusion h

/-- Witness for C4_request_shape at one concrete config per provider. -/
theorem C4_request_shape_witness :
    jsonLookup (("stream").data)
        (buildRequestBody ⟨.openai, [], [], (("m").data), none, none, 1, 2, 3⟩ (("p").data)) =
      some (.bool false) ∧
    jsonLookup (("options").data)
        (buildRequestBody ⟨.openai, [], [], (("m").data), none, none, 1, 2, 3⟩ (("p").data)) =
      none ∧
    jsonLookup (("temperature").data)
        (buildRequestBody ⟨.ollama, [], [], (("m").data), none, none, 1, 2, 3⟩ (("p").data)) =
      none :=
  ⟨(C4_request_shape ⟨.openai, [], [], (("m").data), none, none, 1, 2, 3⟩ (("p").data)).2.2.1,
   ((C4_request_shape ⟨.openai, [], [], (("m").data), none, none, 1, 2, 3⟩
      (("p").data)).2.2.2.1 rfl).2.2,
   ((C4_request_shape ⟨.ollama, [], [], (("m").data), none, none, 1, 2, 3⟩
      (("p").data)).2.2.2.2 rfl).2.1⟩

/-- Claim C5, as frozen, is false on the code: a null response value is a
JSON value on which both branches raise a TypeError through the initial
plain member access, instead of failing with the LLMError that names the
expected field path. -/
theorem C5_false_at_null :
    parseResponseContent .openai .null = .typeErr (("choices").data) ∧
    parseResponseContent .openai .null ≠ .llmErr openaiMissing ∧
    parseResponseContent .ollama .null = .typeErr (("message").data) ∧
    parseResponseContent .ollama .null ≠ .llmErr ollamaMissing :=
  ⟨rfl, by decide, rfl, by decide⟩

/-- Claim C5 (amended): on every JSON value other than null, each provider
branch returns the string found at its field path when that read yields a
string, and otherwise fails with the LLMError naming the expected path. -/
theorem C5_parse_spec (j : JsonValue) (hj : j ≠ JsonValue.null) :
    (∀ s, openaiContentAt j = some (.str s) → parseResponseContent .openai j = .ok s) ∧
    ((∀ s, openaiContentAt j ≠ some (.str s)) →
      parseResponseContent .openai j = .llmErr openaiMissing) ∧
    (∀ s, ollamaContentAt j = some (.str s) → parseResponseContent .ollama j = .ok s) ∧
    ((∀ s, ollamaContentAt j ≠ some (.str s)) →
      parseResponseContent .ollama j = .llmErr ollamaMissing) := by
  have hnull : isNullJson j = false := isNull_false hj
  refine ⟨?_, ?_, ?_, ?_⟩
  · intro s hs
    unfold parseResponseContent
    rw [if_pos rfl, if_neg (by simp [hnull]), hs]
  · intro hne
    unfold parseResponseContent
    rw [if_pos rfl, if_neg (by simp [hnull])]
    cases ho : openaiContentAt j with
    | none => rfl
    | some v =>
      cases v
      case str s => exact absurd ho (hne s)
      all_goals rfl
  · intro s hs
    unfold parseResponseContent
    rw [if_neg (by decide), if_neg (by simp [hnull]), hs]
  · intro hne
    unfold parseResponseContent
    rw [if_neg (by decide), if_neg (by simp [hnull])]
    cases ho : ollamaContentAt j with
    | none => rfl
    | some v =>
      cases v
      case str s => exact absurd ho (hne s)
      all_goals rfl

/-- Witness for C5_parse_spec: the four concrete examples of §8. -/
theorem C5_parse_spec_witness :
    parseResponseContent .ollama
        (.obj [((("message").data), .obj [((("content").data), .str (("x").data))])]) =
      .ok (("x").data) ∧
    parseResponseContent .ollama (.obj []) = .llmErr ollamaMissing ∧
    parseResponseContent .openai
        (.obj [((("choices").data), .arr [.obj [((("message").data),
          .obj [((("content").data), .str (("x").data))])]])]) =
      .ok (("x").data) ∧
    parseResponseContent .openai (.obj []) = .llmErr openaiMissing :=
  ⟨(C5_parse_spec _ (fun h => JsonValue.noConfusion h)).2.2.1 (("x").data) rfl,
   (C5_parse_spec _ (fun h => JsonValue.noConfusion h)).2.2.2
     (fun _ h => Option.noConfusion h),
   (C5_parse_spec _ (fun h => JsonValue.noConfusion h)).1 (("x").data) rfl,
   (C5_parse_spec _ (fun h => JsonValue.noConfusion h)).2.1
     (fun _ h => Option.noConfusion h)⟩

/-! The retry policy of callLLM. -/

theorem attempt_throws (p : LLMProvider) (m : List Char) :
    attemptOnce p (.throws m) = .otherFailure m := rfl

theorem attempt_status {st : Nat} (p : LLMProvider) (j : JsonValue) (h : 400 ≤ st) :
    attemptOnce p (.responds st j) = .llmFailure (statusMessage st) := by
  simp only [attemptOnce]
  rw [if_pos h]

theorem attempt_parse_ok {st : Nat} {j : JsonValue} {c : List Char} (p : LLMProvider)
    (h1 : st < 400) (h2 : parseResponseContent p j = .ok c) :
    attemptOnce p (.responds st j) = .success c := by
  simp only [attemptOnce]
  rw [if_neg (by omega), h2]

theorem attempt_parse_llm {st : Nat} {j : JsonValue} {e : List Char} (p : LLMProvider)
    (h1 : st < 400) (h2 : parseResponseContent p j = .llmErr e) :
    attemptOnce p (.responds st j) = .llmFailure e := by
  simp only [attemptOnce]
  rw [if_neg (by omega), h2]

theorem call_of_success {p : LLMProvider} {t1 t2 : TransportResult} {s : List Char}
    (h : attemptOnce p t1 = .success s) : callLLM p t1 t2 = (.ok s, 1) := by
  unfold callLLM
  rw [h]

theorem call_of_llm {p : LLMProvider} {t1 t2 : TransportResult} {m : List Char}
    (h : attemptOnce p t1 = .llmFailure m) : callLLM p t1 t2 = (.llmErr m, 1) := by
  unfold callLLM
  rw [h]

theorem call_other_success {p : LLMProvider} {t1 t2 : TransportResult} {m s : List Char}
    (h1 : attemptOnce p t1 = .otherFailure m) (h2 : attemptOnce p t2 = .success s) :
    callLLM p t1 t2 = (.ok s, 2) := by
  unfold callLLM
  rw [h1, h2]

theorem call_other_llm {p : LLMProvider} {t1 t2 : TransportResult} {m e : List Char}
    (h1 : attemptOnce p t1 = .otherFailure m) (h2 : attemptOnce p t2 = .llmFailure e) :
    callLLM p t1 t2 = (.llmErr e, 2) := by
  unfold callLLM
  rw [h1, h2]

theorem call_other_other {p : LLMProvider} {t1 t2 : TransportResult} {m m2 : List Char}
    (h1 : attemptOnce p t1 = .otherFailure m) (h2 : attemptOnce p t2 = .otherFailure m2) :
    callLLM p t1 t2 = (.llmErr (("Network error after retry: ").data ++ m2), 2) := by
  unfold callLLM
  rw [h1, h2]

/-- Claim C3, as frozen, is false on the code on its parse-failure clause: a
null response JSON makes the parser throw a TypeError, which the retry loop
treats as a transport-level failure and retries, so the call consumes two
transport invocations instead of failing immediately with a path-naming
error. -/
theorem C3_false_at_null_json :
    callLLM .ollama (.responds 200 .null) (.responds 200 .null) =
      (.llmErr (("Network error after retry: ").data ++
        typeErrorMessage (("message").data)), 2) ∧
    (callLLM .ollama (.responds 200 .null) (.responds 200 .null)).2 ≠ 1 :=
  ⟨rfl, by decide⟩

/-- Claim C3 (amended): callLLM makes at most two transport invocations; a
transport throw on the first attempt always leads to a second invocation;
two throws fail with the LLMError wrapping the last underlying message; an
HTTP status of at least 400 fails immediately after one invocation naming
the status; a parse failure that raises the LLMError naming the field path
fails immediately after one invocation; a first-attempt success returns
after one invocation, and a throw followed by a successful response returns
after two. -/
theorem C3_retry_policy (p : LLMProvider) (t1 t2 : TransportResult) :
    ((callLLM p t1 t2).2 = 1 ∨ (callLLM p t1 t2).2 = 2) ∧
    (∀ e1, t1 = .throws e1 → (callLLM p t1 t2).2 = 2) ∧
    (∀ e1 e2, t1 = .throws e1 → t2 = .throws e2 →
      callLLM p t1 t2 = (.llmErr (("Network error after retry: ").data ++ e2), 2)) ∧
    (∀ st j, t1 = .responds st j → 400 ≤ st →
      callLLM p t1 t2 = (.llmErr (statusMessage st), 1)) ∧
    (∀ st j e, t1 = .responds st j → st < 400 → parseResponseContent p j = .llmErr e →
      callLLM p t1 t2 = (.llmErr e, 1)) ∧
    (∀ st j c, t1 = .responds st j → st < 400 → parseResponseContent p j = .ok c →
      callLLM p t1 t2 = (.ok c, 1)) ∧
    (∀ e1 st j c, t1 = .throws e1 → t2 = .responds st j → st < 400 →
      parseResponseContent p j = .ok c → callLLM p t1 t2 = (.ok c, 2)) := by
  refine ⟨?_, ?_, ?_, ?_, ?_, ?_, ?_⟩
  · cases ha : attemptOnce p t1 with
    | success s => rw [call_of_success ha]; exact Or.inl rfl
    | llmFailure m => rw [call_of_llm ha]; exact Or.inl rfl
    | otherFailure m =>
      cases hb : attemptOnce p t2 with
      | success s => rw [call_other_success ha hb]; exact Or.inr rfl
      | llmFailure e => rw [call_other_llm ha hb]; exact Or.inr rfl
      | otherFailure m2 => rw [call_other_other ha hb]; exact Or.inr rfl
  · intro e1 h1
    subst h1
    cases hb : attemptOnce p t2 with
    | success s => rw [call_other_success (attempt_throws p e1) hb]
    | llmFailure e => rw [call_other_llm (attempt_throws p e1) hb]
    | otherFailure m2 => rw [call_other_other (attempt_throws p e1) hb]
  · intro e1 e2 h1 h2
    subst h1; subst h2
    exact call_other_other (attempt_throws p e1) (attempt_throws p e2)
  · intro st j h1 hst
    subst h1
    exact call_of_llm (attempt_status p j hst)
  · intro st j e h1 hst hp
    subst h1
    exact call_of_llm (attempt_parse_llm p hst hp)
  · intro st j c h1 hst hp
    subst h1
    exact call_of_success (attempt_parse_ok p hst hp)
  · intro e1 st j c h1 h2 hst hp
    subst h1; subst h2
    exact call_other_success (attempt_throws p e1) (attempt_parse_ok p hst hp)

/-- Witness for C3_retry_policy on concrete transport scripts. -/
theorem C3_retry_policy_witness :
    callLLM .ollama (.throws (("refused").data)) (.throws (("refused").data)) =
      (.llmErr (("Network error after retry: ").data ++ ("refused").data), 2) ∧
    callLLM .ollama (.responds 500 .null) (.responds 200 .null) =
      (.llmErr (statusMessage 500), 1) ∧
    callLLM .ollama (.responds 200 (.obj [])) (.throws (("x").data)) =
      (.llmErr ollamaMissing, 1) ∧
    callLLM .ollama (.throws (("x").data))
        (.responds 200 (.obj [((("message").data),
          .obj [((("content").data), .str (("ok").data))])])) =
      (.ok (("ok").data), 2) :=
  ⟨(C3_retry_policy .ollama _ _).2.2.1 _ _ rfl rfl,
   (C3_retry_policy .ollama _ _).2.2.2.1 _ _ rfl (by omega),
   (C3_retry_policy .ollama _ _).2.2.2.2.1 _ _ _ rfl (by omega) rfl,
   (C3_retry_policy .ollama _ _).2.2.2.2.2.2 _ _ _ _ rfl rfl (by omega) rfl⟩

end SmartNib
